import Mathlib

/-!
# Verification of the Redis-Streams priority-aware work queue

Shallow embedding of `src/redis/queue/queue/queue.go`.

The queue core (`StreamPriorityQueue`) is written against the go-redis v8
client.  We embed it as Lean functions parameterized by a `Client σ`
structure — a record of the seven client calls the queue code makes
(`XAdd`, `XReadGroup`, `XPendingExt`, `XClaim`, `XAck`, `XLen`,
`XPending`) plus the system clock (`time.Now`) — exactly the surface the
Go code touches.  The reference client `redisClient` implements the
documented Redis Streams semantics of these commands over an explicit
`RedisState` (log + consumer-group cursor + pending-entries list + clock);
failure scenarios are expressed by clients that return errors, mirroring a
backend that is unreachable or reports absence.

Go's `(value, error)` returns are embedded as `RResult`: `ok` is
`err == nil`, `redisNil` is the sentinel `redis.Nil` (which *is* a non-nil
error in Go), and `fail` covers every other error.  Machine integers
(`int`, `int64`) are embedded as unbounded `Int`; overflow plays no role
in any claim.  Time is in nanoseconds (`time.Duration` units).
-/

namespace StreamQueue

/-- A Go `interface{}` value stored in a stream record.  Every value the
queue itself writes is a string; `nonstr` stands for any non-string value,
so that the `v.(string)` type assertions in the source are representable. -/
inductive GoVal where
  | str : String → GoVal
  | nonstr : GoVal
deriving DecidableEq, Repr

/-- A stream record: the `map[string]interface{}` of field names to values
(`Values` in go-redis `XMessage` / `XAddArgs`). -/
abbrev Record := List (String × GoVal)

/-- Go map lookup `m[k]`: first binding of `k`, if any (`nil` otherwise). -/
def lookupField : Record → String → Option GoVal
  | [], _ => none
  | (k, v) :: rest, key => if k = key then some v else lookupField rest key

/-! ## `strconv` model: `Itoa` / `FormatInt` and `Atoi` -/

/-- The ASCII character of a decimal digit (`0 ≤ d ≤ 9` gives `'0'..'9'`). -/
def digitChar (d : Nat) : Char := Char.ofNat (48 + d)

/-- Decimal digits of `n`, least significant first, with explicit fuel so
that the definition is structurally recursive (and kernel-reducible). -/
def digitsRevFuel : Nat → Nat → List Nat
  | 0, _ => []
  | _ + 1, 0 => []
  | fuel + 1, n + 1 => (n + 1) % 10 :: digitsRevFuel fuel ((n + 1) / 10)

/-- The decimal digit characters of a natural number, most significant
first; `0` prints as `"0"`.  This is Go's `strconv.FormatUint` base 10. -/
def formatNat (n : Nat) : List Char :=
  if n = 0 then ['0'] else ((digitsRevFuel n n).map digitChar).reverse

/-- Go `strconv.Itoa` / `strconv.FormatInt(·, 10)`: decimal representation
with a leading `'-'` for negative values. -/
def Itoa (n : Int) : String :=
  if n < 0 then String.mk ('-' :: formatNat n.natAbs)
  else String.mk (formatNat n.natAbs)

/-- Inverse of `digitChar` on `'0'..'9'`; `none` on any other character. -/
def charDigit (c : Char) : Option Nat :=
  if 48 ≤ c.toNat ∧ c.toNat ≤ 57 then some (c.toNat - 48) else none

/-- Accumulator pass over decimal digit characters; fails on the first
non-digit character. -/
def parseDigitsFrom (acc : Nat) : List Char → Option Nat
  | [] => some acc
  | c :: cs =>
    match charDigit c with
    | some d => parseDigitsFrom (acc * 10 + d) cs
    | none => none

/-- Character-list view of `Atoi`: optional sign followed by at least one
decimal digit; every other input is an error (`none`). -/
def atoiChars : List Char → Option Int
  | [] => none
  | c :: cs =>
    if c = '-' then
      if cs.isEmpty then none
      else (parseDigitsFrom 0 cs).map fun m => -(Int.ofNat m)
    else if c = '+' then
      if cs.isEmpty then none
      else (parseDigitsFrom 0 cs).map Int.ofNat
    else (parseDigitsFrom 0 (c :: cs)).map Int.ofNat

/-- Go `strconv.Atoi`.  Go's `int` overflow error is not modelled —
integers are unbounded here and no claim involves overflow. -/
def Atoi (s : String) : Option Int := atoiChars s.data

/-! ### Round-trip facts about the `strconv` model -/

theorem digitsRevFuel_eq_digits : ∀ fuel n, n ≤ fuel →
    digitsRevFuel fuel n = Nat.digits 10 n := by
  intro fuel
  induction fuel with
  | zero =>
    intro n hn
    interval_cases n
    simp [digitsRevFuel]
  | succ fuel ih =>
    intro n hn
    match n with
    | 0 => simp [digitsRevFuel]
    | m + 1 =>
      rw [digitsRevFuel, Nat.digits_def' (by norm_num : (1:ℕ) < 10) (Nat.succ_pos m)]
      congr 1
      exact ih ((m + 1) / 10)
        (Nat.le_of_lt_succ (Nat.lt_of_lt_of_le (Nat.div_lt_self (Nat.succ_pos m) (by norm_num)) hn))

theorem charDigit_digitChar (d : Nat) (h : d < 10) :
    charDigit (digitChar d) = some d := by
  interval_cases d <;> decide

theorem digitChar_ne_minus (d : Nat) (h : d < 10) : digitChar d ≠ '-' := by
  interval_cases d <;> decide

theorem digitChar_ne_plus (d : Nat) (h : d < 10) : digitChar d ≠ '+' := by
  interval_cases d <;> decide

theorem parseDigitsFrom_map_digitChar (ds : List Nat) (h : ∀ d ∈ ds, d < 10) :
    ∀ acc, parseDigitsFrom acc (ds.map digitChar)
      = some (ds.foldl (fun a d => a * 10 + d) acc) := by
  induction ds with
  | nil => intro acc; rfl
  | cons d ds ih =>
    intro acc
    have hd : d < 10 := h d (List.mem_cons_self d ds)
    simp only [List.map_cons, parseDigitsFrom, charDigit_digitChar d hd, List.foldl_cons]
    exact ih (fun x hx => h x (List.mem_cons_of_mem d hx)) (acc * 10 + d)

theorem foldl_reverse_ofDigits (ds : List Nat) :
    ∀ acc, ds.reverse.foldl (fun a d => a * 10 + d) acc
      = acc * 10 ^ ds.length + Nat.ofDigits 10 ds := by
  induction ds with
  | nil => intro acc; simp [Nat.ofDigits_nil]
  | cons d ds ih =>
    intro acc
    simp only [List.reverse_cons, List.foldl_append, List.foldl_cons, List.foldl_nil, ih,
      Nat.ofDigits_cons, List.length_cons, pow_succ]
    ring

theorem parseDigitsFrom_formatNat (n : Nat) :
    parseDigitsFrom 0 (formatNat n) = some n := by
  by_cases hn : n = 0
  · subst hn; decide
  · unfold formatNat
    rw [if_neg hn, digitsRevFuel_eq_digits n n le_rfl, ← List.map_reverse,
      parseDigitsFrom_map_digitChar _
        (fun d hd => Nat.digits_lt_base (by norm_num) (List.mem_reverse.mp hd)),
      foldl_reverse_ofDigits, Nat.ofDigits_digits]
    simp

theorem formatNat_ne_nil (n : Nat) : formatNat n ≠ [] := by
  unfold formatNat
  by_cases hn : n = 0
  · simp [hn]
  · rw [if_neg hn, digitsRevFuel_eq_digits n n le_rfl]
    simp [Nat.digits_ne_nil_iff_ne_zero, hn]

theorem formatNat_all_digits (n : Nat) :
    ∀ c ∈ formatNat n, ∃ d, d < 10 ∧ c = digitChar d := by
  intro c hc
  unfold formatNat at hc
  by_cases hn : n = 0
  · rw [if_pos hn] at hc
    simp only [List.mem_singleton] at hc
    exact ⟨0, by norm_num, hc⟩
  · rw [if_neg hn, digitsRevFuel_eq_digits n n le_rfl, List.mem_reverse] at hc
    obtain ⟨d, hd, rfl⟩ := List.mem_map.mp hc
    exact ⟨d, Nat.digits_lt_base (by norm_num) hd, rfl⟩

theorem formatNat_isEmpty_eq_false (n : Nat) : (formatNat n).isEmpty = false := by
  cases h : formatNat n with
  | nil => exact absurd h (formatNat_ne_nil _)
  | cons c cs => rfl

/-- `strconv` round-trip: `Atoi (Itoa n) = n` for every integer. -/
theorem Atoi_Itoa (n : Int) : Atoi (Itoa n) = some n := by
  unfold Itoa
  by_cases hn : n < 0
  · rw [if_pos hn]
    show atoiChars ('-' :: formatNat n.natAbs) = some n
    rw [atoiChars, if_pos rfl, formatNat_isEmpty_eq_false]
    simp only [Bool.false_eq_true, if_false, parseDigitsFrom_formatNat, Option.map_some']
    congr 1
    simp only [Int.ofNat_eq_coe]
    omega
  · rw [if_neg hn]
    show atoiChars (formatNat n.natAbs) = some n
    obtain ⟨c, cs, hf⟩ := List.exists_cons_of_ne_nil (formatNat_ne_nil n.natAbs)
    obtain ⟨d, hd10, hcd⟩ := formatNat_all_digits n.natAbs c (hf ▸ List.mem_cons_self c cs)
    rw [hf, atoiChars, if_neg (hcd ▸ digitChar_ne_minus d hd10),
      if_neg (hcd ▸ digitChar_ne_plus d hd10), ← hf, parseDigitsFrom_formatNat]
    simp only [Option.map_some']
    congr 1
    simp only [Int.ofNat_eq_coe]
    omega

/-! ## Go `(value, error)` results -/

/-- Result of a go-redis call, as the Go pair `(value, err)`:
`ok v` is `err == nil`; `redisNil` is the sentinel error `redis.Nil`
(note that in Go `redis.Nil != nil`, so it satisfies `err != nil`);
`fail e` is any other error (network failure, backend error, or one of the
queue's own `fmt.Errorf` messages — the `%v` payloads of wrapped errors
are elided). -/
inductive RResult (α : Type) where
  | ok : α → RResult α
  | redisNil : RResult α
  | fail : String → RResult α
deriving DecidableEq, Repr

/-- go-redis `XMessage`: a delivered stream entry.  Entry IDs are embedded
as naturals (the backend assigns them monotonically increasing). -/
structure XMessage where
  id : Nat
  values : Record
deriving DecidableEq, Repr

/-- One row of go-redis `XPendingExt`: `(ID, Consumer, Idle, RetryCount)`.
`idle` is in nanoseconds (`time.Duration`). -/
structure XPendingEntryInfo where
  id : Nat
  consumer : String
  idle : Nat
  retryCount : Nat
deriving DecidableEq, Repr

/-- go-redis `XPending` summary (only the `Count` field is used). -/
structure XPendingSummary where
  count : Nat
deriving DecidableEq, Repr

/-- go-redis `XAddArgs` (the fields the queue sets). -/
structure XAddArgs where
  stream : String
  values : Record
deriving Repr

/-- go-redis `XReadGroupArgs` (the fields the queue sets).  `block` is in
nanoseconds. -/
structure XReadGroupArgs where
  group : String
  consumer : String
  stream : String
  count : Nat
  block : Nat
  noAck : Bool
deriving Repr

/-- go-redis `XPendingExtArgs` (the fields the queue sets); `start`/`stop`
are the `Start`/`End` range bounds (`"-"`/`"+"` = whole range). -/
structure XPendingExtArgs where
  stream : String
  group : String
  start : String
  stop : String
  count : Nat
  consumer : String
deriving Repr

/-- go-redis `XClaimArgs` (the fields the queue sets); `minIdle` in
nanoseconds. -/
structure XClaimArgs where
  stream : String
  group : String
  consumer : String
  minIdle : Nat
  messages : List Nat
deriving Repr

/-- The go-redis client surface the queue code invokes, as a record of
state-passing functions over a backend state `σ`, plus the system clock
`timeNow` (used by `Enqueue` for `time.Now().UnixNano()`).  `xAck` takes
`(stream, group, id)`; `xLen` the stream name; `xPending` `(stream, group)`. -/
structure Client (σ : Type) where
  xAdd : XAddArgs → σ → RResult Nat × σ
  xReadGroup : XReadGroupArgs → σ → RResult (List XMessage) × σ
  xPendingExt : XPendingExtArgs → σ → RResult (List XPendingEntryInfo) × σ
  xClaim : XClaimArgs → σ → RResult (List XMessage) × σ
  xAck : String → String → Nat → σ → RResult Nat × σ
  xLen : String → σ → RResult Nat × σ
  xPending : String → String → σ → RResult XPendingSummary × σ
  timeNow : σ → Nat

/-- `StreamPriorityQueue`'s own fields (the client and context are passed
separately). -/
structure PQ where
  stream : String
  group : String
deriving DecidableEq, Repr

/-- `time.Second` in nanoseconds. -/
def timeSecond : Nat := 1000000000

/-! ## The Queue Engine (`queue.go`), generic over the client -/

/-- `Enqueue(item, priority)`: `XAdd` of the record
`{item: item, priority: Itoa(priority), created: FormatInt(time.Now().UnixNano(), 10)}`. -/
def Enqueue (c : Client σ) (pq : PQ) (item : String) (priority : Int) (s : σ) :
    RResult Unit × σ :=
  match c.xAdd
      { stream := pq.stream,
        values := [("item", GoVal.str item),
                   ("priority", GoVal.str (Itoa priority)),
                   ("created", GoVal.str (Itoa (Int.ofNat (c.timeNow s))))] } s with
  | (RResult.ok _, s1) => (RResult.ok (), s1)
  | (RResult.redisNil, s1) => (RResult.redisNil, s1)
  | (RResult.fail e, s1) => (RResult.fail e, s1)

/-- `processMessage(msg)`: extract `item` and `priority` (failing on a
missing/non-string field or unparsable integer), then `XAck` the message;
an `XAck` error is wrapped as `failed to ack message`.  The
`fmt.Printf` processing hook is pure I/O and has no embedded effect. -/
def processMessage (c : Client σ) (pq : PQ) (msg : XMessage) (s : σ) :
    RResult (String × Int) × σ :=
  match lookupField msg.values "item" with
  | some (GoVal.str item) =>
    match lookupField msg.values "priority" with
    | some (GoVal.str priorityStr) =>
      match Atoi priorityStr with
      | some priority =>
        match c.xAck pq.stream pq.group msg.id s with
        | (RResult.ok _, s1) => (RResult.ok (item, priority), s1)
        | (RResult.redisNil, s1) => (RResult.fail "failed to ack message", s1)
        | (RResult.fail _, s1) => (RResult.fail "failed to ack message", s1)
      | none => (RResult.fail "invalid priority value", s)
    | _ => (RResult.fail "invalid priority type", s)
  | _ => (RResult.fail "invalid item type", s)

/-- `Dequeue()`: blocking `XReadGroup` of one new (`">"`) entry as
`consumer-1`, then `processMessage`.  (go-redis returns a list of
per-stream results; with the single stream read here this is flattened to
the message list, and the source's
`len(results) == 0 || len(results[0].Messages) == 0` check is the
emptiness test.) -/
def Dequeue (c : Client σ) (pq : PQ) (s : σ) : RResult (String × Int) × σ :=
  match c.xReadGroup
      { group := pq.group, consumer := "consumer-1", stream := pq.stream,
        count := 1, block := 5 * timeSecond, noAck := false } s with
  | (RResult.ok results, s1) =>
    match results with
    | [] => (RResult.redisNil, s1)
    | msg :: _ => processMessage c pq msg s1
  | (RResult.redisNil, s1) => (RResult.redisNil, s1)
  | (RResult.fail e, s1) => (RResult.fail e, s1)

/-- `tryClaimPendingMessages()`: list up to 10 pending entries across all
consumers (`Consumer: ""`, range `-`..`+`); a non-`Nil` error propagates,
while a `Nil` result leaves a nil slice (so no rows).  Keep the IDs idle
for at least `30*time.Second`; if none, `redis.Nil`.  Otherwise `XClaim`
them for `consumer-1` with the same `MinIdle`; any claim error or an empty
claim yields `redis.Nil`; otherwise process the first claimed message. -/
def tryClaimPendingMessages (c : Client σ) (pq : PQ) (s : σ) :
    RResult (String × Int) × σ :=
  match c.xPendingExt
      { stream := pq.stream, group := pq.group, start := "-", stop := "+",
        count := 10, consumer := "" } s with
  | (RResult.fail e, s1) => (RResult.fail e, s1)
  | (res, s1) =>
    let pendingExt := match res with | RResult.ok l => l | _ => []
    let idleMessageIDs :=
      (pendingExt.filter fun p => 30 * timeSecond ≤ p.idle).map fun p => p.id
    if idleMessageIDs.isEmpty then (RResult.redisNil, s1)
    else
      match c.xClaim
          { stream := pq.stream, group := pq.group, consumer := "consumer-1",
            minIdle := 30 * timeSecond, messages := idleMessageIDs } s1 with
      | (RResult.ok claimed, s2) =>
        match claimed with
        | [] => (RResult.redisNil, s2)
        | first :: _ => processMessage c pq first s2
      | (RResult.redisNil, s2) => (RResult.redisNil, s2)
      | (RResult.fail _, s2) => (RResult.redisNil, s2)

/-- `DequeueWithPriority()`: try the reclaim path first; on `err == nil`
return its result, otherwise (any error, `redis.Nil` or not) fall through
to a normal `Dequeue`. -/
def DequeueWithPriority (c : Client σ) (pq : PQ) (s : σ) :
    RResult (String × Int) × σ :=
  match tryClaimPendingMessages c pq s with
  | (RResult.ok v, s1) => (RResult.ok v, s1)
  | (RResult.redisNil, s1) => Dequeue c pq s1
  | (RResult.fail _, s1) => Dequeue c pq s1

/-- Result of `GetQueueInfo` `(int64, int64, error)`.  `nilPanic` models
the Go run-time panic that occurs when `XPending` returns `(nil, redis.Nil)`:
the guard `err != nil && err != redis.Nil` lets `redis.Nil` through and
`pending.Count` then dereferences the nil `*redis.XPending`. -/
inductive InfoResult where
  | ok : Nat → Nat → InfoResult
  | redisNil : InfoResult
  | fail : String → InfoResult
  | nilPanic : InfoResult
deriving DecidableEq, Repr

/-- `GetQueueInfo()`: `XLen` (any error, `Nil` included, propagates), then
the `XPending` summary with the `err != redis.Nil` tolerance — see
`InfoResult.nilPanic` for what the tolerated case actually does. -/
def GetQueueInfo (c : Client σ) (pq : PQ) (s : σ) : InfoResult × σ :=
  match c.xLen pq.stream s with
  | (RResult.ok streamLen, s1) =>
    match c.xPending pq.stream pq.group s1 with
    | (RResult.ok pending, s2) => (InfoResult.ok streamLen pending.count, s2)
    | (RResult.redisNil, s2) => (InfoResult.nilPanic, s2)
    | (RResult.fail e, s2) => (InfoResult.fail e, s2)
  | (RResult.redisNil, s1) => (InfoResult.redisNil, s1)
  | (RResult.fail e, s1) => (InfoResult.fail e, s1)

/-- `Peek()`: `XReadGroup` of one new entry as consumer `peeker` with
`NoAck: true` and `Block: 0`, then the same field extraction as
`processMessage` but with no acknowledgment.  (The model has no real
time, so an empty stream yields the `redis.Nil` timeout signal here; the
source's `Block: 0` actually means "block forever" — see the C6 analysis.) -/
def Peek (c : Client σ) (pq : PQ) (s : σ) : RResult (String × Int) × σ :=
  match c.xReadGroup
      { group := pq.group, consumer := "peeker", stream := pq.stream,
        count := 1, block := 0, noAck := true } s with
  | (RResult.ok results, s1) =>
    match results with
    | [] => (RResult.redisNil, s1)
    | msg :: _ =>
      match lookupField msg.values "item" with
      | some (GoVal.str item) =>
        match lookupField msg.values "priority" with
        | some (GoVal.str priorityStr) =>
          match Atoi priorityStr with
          | some priority => (RResult.ok (item, priority), s1)
          | none => (RResult.fail "invalid priority value", s1)
        | _ => (RResult.fail "invalid priority type", s1)
      | _ => (RResult.fail "invalid item type", s1)
  | (RResult.redisNil, s1) => (RResult.redisNil, s1)
  | (RResult.fail e, s1) => (RResult.fail e, s1)

/-! ## The Redis Streams backend model

The queue addresses a single stream and a single consumer group
(`pq.stream` / `pq.group` on every call), so the backend state models one
stream with one group; the name arguments are therefore not re-checked by
the reference client.  Semantics follow the documented behavior of the
Redis Streams commands:

* entries get monotonically increasing IDs and are never deleted (the
  queue never trims), embedded as the position in the log;
* `XREADGROUP ">"` delivers the entries past the group's last-delivered
  cursor, advancing it; without `NOACK` each delivered entry is added to
  the group's pending-entries list (PEL), while with `NOACK` the PEL is
  untouched — per the Redis documentation, NOACK "avoids adding the
  message to the PEL";
* the PEL records, per entry, the owning consumer, the last delivery time
  (idle time = clock − last delivery) and the delivery counter; it stays
  in entry-ID order (new deliveries append, nothing reorders);
* `XPENDING` (extended) lists PEL rows in ID order, up to `count`,
  optionally filtered by consumer, with their current idle times;
* `XCLAIM` re-checks `MinIdle` against the current idle time of each
  requested entry: entries idle at least `MinIdle` transfer to the new
  consumer with the idle timer reset and the delivery counter incremented,
  and are returned with their record; the rest are silently skipped;
* `XACK` removes the entry from the PEL;
* `XLEN` is the log length, and the `XPENDING` summary counts the PEL.

Blocking cannot be modelled (no real time): an `XREADGROUP` with nothing
to deliver returns the `redis.Nil` timeout signal. -/

/-- One appended log entry. -/
structure Entry where
  id : Nat
  values : Record
deriving DecidableEq, Repr

/-- One PEL row: owner, last delivery time (nanoseconds on the global
clock) and delivery counter. -/
structure PendingEntry where
  id : Nat
  consumer : String
  deliveryTime : Nat
  deliveryCount : Nat
deriving DecidableEq, Repr

/-- Backend state: the log, the group's last-delivered cursor (number of
entries already delivered as "new"), the group's PEL, and the current
clock in nanoseconds. -/
structure RedisState where
  log : List Entry
  lastDelivered : Nat
  pel : List PendingEntry
  clock : Nat
deriving DecidableEq, Repr

/-- The record of the entry with the given ID, if it is in the log. -/
def logLookup (s : RedisState) (id : Nat) : Option Record :=
  (s.log.find? fun e => e.id == id).map fun e => e.values

/-- The IDs currently in the group's pending-entries list. -/
def pelIds (s : RedisState) : List Nat := s.pel.map fun p => p.id

/-- `XADD`: append with the next ID (= log position) and return it. -/
def xAddImpl (a : XAddArgs) (s : RedisState) : RResult Nat × RedisState :=
  (RResult.ok s.log.length,
   { s with log := s.log ++ [{ id := s.log.length, values := a.values }] })

/-- `XREADGROUP ">"`: deliver up to `count` entries past the cursor; if
none are available, the `redis.Nil` timeout signal.  Without `NOACK`,
delivered entries enter the PEL for the reading consumer with a fresh
idle timer and delivery count 1. -/
def xReadGroupImpl (a : XReadGroupArgs) (s : RedisState) :
    RResult (List XMessage) × RedisState :=
  let msgs := (s.log.drop s.lastDelivered).take a.count
  if msgs.isEmpty then (RResult.redisNil, s)
  else
    (RResult.ok (msgs.map fun e => { id := e.id, values := e.values }),
     { s with
        lastDelivered := s.lastDelivered + msgs.length,
        pel := if a.noAck then s.pel
          else s.pel ++ msgs.map fun e =>
            { id := e.id, consumer := a.consumer, deliveryTime := s.clock,
              deliveryCount := 1 } })

/-- `XPENDING` (extended): the PEL rows (filtered by consumer when one is
named) in ID order, up to `count`, with current idle times. -/
def xPendingExtImpl (a : XPendingExtArgs) (s : RedisState) :
    RResult (List XPendingEntryInfo) × RedisState :=
  let rows := if a.consumer = "" then s.pel
    else s.pel.filter fun p => p.consumer == a.consumer
  (RResult.ok ((rows.take a.count).map fun p =>
      { id := p.id, consumer := p.consumer, idle := s.clock - p.deliveryTime,
        retryCount := p.deliveryCount }), s)

/-- Whether `XCLAIM` with the given arguments transfers this PEL row: it
must be requested, its idle time must still be at least `minIdle`
(re-validated at claim time), and its entry must still be in the log. -/
def claimable (a : XClaimArgs) (s : RedisState) (p : PendingEntry) : Bool :=
  a.messages.contains p.id
    && decide (a.minIdle ≤ s.clock - p.deliveryTime)
    && (logLookup s p.id).isSome

/-- The messages `XCLAIM` returns: the records of the transferred
entries, in PEL (= ID) order. -/
def claimReply (a : XClaimArgs) (s : RedisState) : List XMessage :=
  (s.pel.filter (claimable a s)).filterMap fun p =>
    (logLookup s p.id).map fun vs => { id := p.id, values := vs }

/-- The state after `XCLAIM`: transferred rows get the new owner, a reset
idle timer, and an incremented delivery counter. -/
def claimTransfer (a : XClaimArgs) (s : RedisState) : RedisState :=
  { s with pel := s.pel.map fun p =>
      if claimable a s p then
        { p with consumer := a.consumer, deliveryTime := s.clock,
                 deliveryCount := p.deliveryCount + 1 }
      else p }

/-- `XACK`: remove the entry from the PEL, reporting how many were acked. -/
def xAckImpl (id : Nat) (s : RedisState) : RResult Nat × RedisState :=
  (RResult.ok (if s.pel.any fun p => p.id == id then 1 else 0),
   { s with pel := s.pel.filter fun p => p.id != id })

/-- The reference client: the Redis semantics above over `RedisState`,
with the shared global clock as `time.Now`. -/
def redisClient : Client RedisState where
  xAdd := xAddImpl
  xReadGroup := xReadGroupImpl
  xPendingExt := xPendingExtImpl
  xClaim := fun a s => (RResult.ok (claimReply a s), claimTransfer a s)
  xAck := fun _ _ id s => xAckImpl id s
  xLen := fun _ s => (RResult.ok s.log.length, s)
  xPending := fun _ _ s => (RResult.ok { count := s.pel.length }, s)
  timeNow := fun s => s.clock

/-- The state of a freshly created queue (`NewStreamPriorityQueue` with
`XGroupCreateMkStream` at position `"0"`): empty stream, cursor at the
start, empty PEL. -/
def freshState (clock : Nat) : RedisState :=
  { log := [], lastDelivered := 0, pel := [], clock := clock }

/-! ## The Message Codec

The spec's Codec component is implemented inline in the source: `encode`
is the `Values` map built in `Enqueue`, and `decode` is the field
extraction duplicated in `processMessage` and `Peek`. -/

/-- A queue item as the spec's data model describes it. -/
structure QueueItem where
  payload : String
  priority : Int
  createdAt : Int
deriving DecidableEq, Repr

/-- `encode`: the record `Enqueue` appends (`item`, `priority`, `created`
fields, integers in decimal). -/
def encode (q : QueueItem) : Record :=
  [("item", GoVal.str q.payload),
   ("priority", GoVal.str (Itoa q.priority)),
   ("created", GoVal.str (Itoa q.createdAt))]

/-- `decode`: the extraction in `processMessage` (lines 121–136) and
`Peek` (lines 186–202): `item` must be a string, `priority` a string
parsing as an integer; the `created` field is not read. -/
def decode (r : Record) : RResult (String × Int) :=
  match lookupField r "item" with
  | some (GoVal.str item) =>
    match lookupField r "priority" with
    | some (GoVal.str priorityStr) =>
      match Atoi priorityStr with
      | some priority => RResult.ok (item, priority)
      | none => RResult.fail "invalid priority value"
    | _ => RResult.fail "invalid priority type"
  | _ => RResult.fail "invalid item type"

/-! ## Basic lemmas -/

/-- `decode` recovers the payload and the priority from an encoded item
(the `created` field is never read by `decode`). -/
theorem decode_encode (q : QueueItem) :
    decode (encode q) = RResult.ok (q.payload, q.priority) := by
  show (match Atoi (Itoa q.priority) with
        | some priority => RResult.ok (q.payload, priority)
        | none => (RResult.fail "invalid priority value" : RResult (String × Int)))
      = RResult.ok (q.payload, q.priority)
  rw [Atoi_Itoa]

/-- `processMessage` is `decode` followed, on success only, by the `XAck`
call (whose failure is wrapped); on a decode failure the client is never
invoked and the state is untouched. -/
theorem processMessage_decode {σ : Type} (c : Client σ) (pq : PQ) (msg : XMessage) (s : σ) :
    processMessage c pq msg s =
      match decode msg.values with
      | RResult.ok v =>
        (match c.xAck pq.stream pq.group msg.id s with
         | (RResult.ok _, s1) => (RResult.ok v, s1)
         | (RResult.redisNil, s1) => (RResult.fail "failed to ack message", s1)
         | (RResult.fail _, s1) => (RResult.fail "failed to ack message", s1))
      | RResult.redisNil => (RResult.redisNil, s)
      | RResult.fail e => (RResult.fail e, s) := by
  unfold processMessage decode
  repeat first
  | rfl
  | split

/-- A successful `processMessage` against the reference backend acked the
message: the resulting PEL is the old one with every row for this entry
ID removed, and the returned pair is the decoded record. -/
theorem processMessage_ok_state (pq : PQ) (msg : XMessage) (s s' : RedisState)
    (v : String × Int) (h : processMessage redisClient pq msg s = (RResult.ok v, s')) :
    s' = { s with pel := s.pel.filter fun p => p.id != msg.id }
      ∧ decode msg.values = RResult.ok v := by
  rw [processMessage_decode] at h
  cases hd : decode msg.values with
  | ok w =>
    rw [hd] at h
    have h' : (RResult.ok w, { s with pel := s.pel.filter fun p => p.id != msg.id })
        = ((RResult.ok v : RResult (String × Int)), s') := h
    injection h' with h1 h2
    injection h1 with h3
    exact ⟨h2.symm, by rw [h3]⟩
  | redisNil =>
    rw [hd] at h
    have h' : ((RResult.redisNil : RResult (String × Int)), s) = (RResult.ok v, s') := h
    injection h' with h1 h2
    exact absurd h1 (by simp)
  | fail e =>
    rw [hd] at h
    have h' : ((RResult.fail e : RResult (String × Int)), s) = (RResult.ok v, s') := h
    injection h' with h1 h2
    exact absurd h1 (by simp)

/-- With `Count: 1`, `XREADGROUP ">"` either times out (`redis.Nil`, state
unchanged) when the cursor is at the end of the log, or delivers exactly
the entry at the cursor. -/
theorem xReadGroupImpl_count_one (a : XReadGroupArgs) (s : RedisState) (hc : a.count = 1) :
    xReadGroupImpl a s =
      match s.log[s.lastDelivered]? with
      | none => (RResult.redisNil, s)
      | some e =>
        (RResult.ok [{ id := e.id, values := e.values }],
         { s with lastDelivered := s.lastDelivered + 1,
                  pel := if a.noAck then s.pel
                    else s.pel ++ [{ id := e.id, consumer := a.consumer,
                                     deliveryTime := s.clock, deliveryCount := 1 }] }) := by
  have hget : s.log[s.lastDelivered]? = (s.log.drop s.lastDelivered).head? := by
    rw [List.head?_eq_getElem?, List.getElem?_drop, Nat.add_zero]
  unfold xReadGroupImpl
  rw [hc, hget]
  cases s.log.drop s.lastDelivered with
  | nil => rfl
  | cons e rest => rfl

/-- The IDs `tryClaimPendingMessages` passes to `XCLAIM` when run against
the reference backend: the first ten PEL rows that are idle for at least
the 30-second threshold. -/
def reclaimCandidateIds (s : RedisState) : List Nat :=
  (((s.pel.take 10).map fun p =>
      ({ id := p.id, consumer := p.consumer, idle := s.clock - p.deliveryTime,
         retryCount := p.deliveryCount } : XPendingEntryInfo)).filter
    fun p => 30 * timeSecond ≤ p.idle).map fun p => p.id

/-- The `XCLAIM` arguments of the reclaim path against the reference
backend. -/
def reclaimArgs (pq : PQ) (s : RedisState) : XClaimArgs :=
  { stream := pq.stream, group := pq.group, consumer := "consumer-1",
    minIdle := 30 * timeSecond, messages := reclaimCandidateIds s }

/-- Unfolding of the reclaim path against the reference backend: the
pending-list query never fails there, so the result is determined by the
idle candidates and the claim outcome. -/
theorem tryClaim_redisClient_eq (pq : PQ) (s : RedisState) :
    tryClaimPendingMessages redisClient pq s =
      if (reclaimCandidateIds s).isEmpty then (RResult.redisNil, s)
      else
        match claimReply (reclaimArgs pq s) s with
        | [] => (RResult.redisNil, claimTransfer (reclaimArgs pq s) s)
        | first :: _ =>
          processMessage redisClient pq first (claimTransfer (reclaimArgs pq s) s) := rfl

/-- `XCLAIM` only transfers ownership: the set (even the list) of pending
IDs is unchanged. -/
theorem pelIds_claimTransfer (a : XClaimArgs) (s : RedisState) :
    pelIds (claimTransfer a s) = pelIds s := by
  unfold pelIds claimTransfer
  simp only [List.map_map]
  refine List.map_congr_left fun p _ => ?_
  by_cases hp : claimable a s p = true <;> simp [hp]

/-- Generic helper: a `filterMap` whose function is defined on every list
element is a `map`. -/
theorem filterMap_some_map {α β γ : Type} (f : α → Option β) (g : α → γ) :
    ∀ l : List α, (∀ x ∈ l, (f x).isSome) →
      l.filterMap (fun x => (f x).map fun _ => g x) = l.map g := by
  intro l
  induction l with
  | nil => intro _; rfl
  | cons x xs ih =>
    intro hall
    cases hf : f x with
    | none =>
      have := hall x (List.mem_cons_self x xs)
      rw [hf] at this
      cases this
    | some b =>
      simp only [List.filterMap_cons, hf, Option.map_some', List.map_cons]
      rw [ih fun y hy => hall y (List.mem_cons_of_mem x hy)]

/-- The IDs of the messages `XCLAIM` returns are exactly the IDs of the
transferred PEL rows, in PEL order. -/
theorem claimReply_ids (a : XClaimArgs) (s : RedisState) :
    (claimReply a s).map (fun m => m.id)
      = (s.pel.filter (claimable a s)).map fun p => p.id := by
  unfold claimReply
  rw [List.map_filterMap]
  have : ∀ p ∈ s.pel.filter (claimable a s),
      ((logLookup s p.id).map fun vs => ({ id := p.id, values := vs } : XMessage)).map
          (fun m => m.id) = (logLookup s p.id).map fun _ => p.id := by
    intro p _
    cases logLookup s p.id <;> rfl
  rw [List.filterMap_congr this]
  refine filterMap_some_map _ _ _ fun p hp => ?_
  have hc := (List.mem_filter.mp hp).2
  unfold claimable at hc
  simp only [Bool.and_eq_true] at hc
  exact hc.2

/-- An entry ID is never among the pending IDs after its `XACK` filter. -/
theorem not_mem_ackFilter (l : List PendingEntry) (i : Nat) :
    i ∉ (l.filter fun p => p.id != i).map fun p => p.id := by
  intro hmem
  obtain ⟨p, hp, hpi⟩ := List.mem_map.mp hmem
  have := (List.mem_filter.mp hp).2
  rw [hpi] at this
  simp at this

/-- Unfolding of `Dequeue` against the reference backend: timeout when
the cursor is at the end of the log, otherwise deliver the entry at the
cursor (into the PEL, as `consumer-1`) and process it. -/
theorem Dequeue_redisClient_eq (pq : PQ) (s : RedisState) :
    Dequeue redisClient pq s =
      match s.log[s.lastDelivered]? with
      | none => (RResult.redisNil, s)
      | some e =>
        processMessage redisClient pq { id := e.id, values := e.values }
          { s with lastDelivered := s.lastDelivered + 1,
                   pel := s.pel ++ [{ id := e.id, consumer := "consumer-1",
                                      deliveryTime := s.clock, deliveryCount := 1 }] } := by
  unfold Dequeue
  rw [show (redisClient.xReadGroup
        { group := pq.group, consumer := "consumer-1", stream := pq.stream,
          count := 1, block := 5 * timeSecond, noAck := false } s)
      = xReadGroupImpl
        { group := pq.group, consumer := "consumer-1", stream := pq.stream,
          count := 1, block := 5 * timeSecond, noAck := false } s from rfl,
    xReadGroupImpl_count_one _ _ rfl]
  cases s.log[s.lastDelivered]? with
  | none => rfl
  | some e => rfl

/-- Unfolding of `Peek` against the reference backend: with `NoAck: true`
the PEL is untouched — the result is the decoded entry at the cursor, and
the only state change is the advanced cursor. -/
theorem Peek_redisClient_eq (pq : PQ) (s : RedisState) :
    Peek redisClient pq s =
      match s.log[s.lastDelivered]? with
      | none => (RResult.redisNil, s)
      | some e =>
        (decode e.values, { s with lastDelivered := s.lastDelivered + 1 }) := by
  unfold Peek
  rw [show (redisClient.xReadGroup
        { group := pq.group, consumer := "peeker", stream := pq.stream,
          count := 1, block := 0, noAck := true } s)
      = xReadGroupImpl
        { group := pq.group, consumer := "peeker", stream := pq.stream,
          count := 1, block := 0, noAck := true } s from rfl,
    xReadGroupImpl_count_one _ _ rfl]
  cases s.log[s.lastDelivered]? with
  | none => rfl
  | some e =>
    show (match lookupField e.values "item" with
      | some (GoVal.str item) =>
        match lookupField e.values "priority" with
        | some (GoVal.str priorityStr) =>
          match Atoi priorityStr with
          | some priority => (RResult.ok (item, priority),
              { s with lastDelivered := s.lastDelivered + 1 })
          | none => (RResult.fail "invalid priority value",
              { s with lastDelivered := s.lastDelivered + 1 })
        | _ => (RResult.fail "invalid priority type",
            { s with lastDelivered := s.lastDelivered + 1 })
      | _ => (RResult.fail "invalid item type",
          { s with lastDelivered := s.lastDelivered + 1 }))
      = (decode e.values, { s with lastDelivered := s.lastDelivered + 1 })
    unfold decode
    repeat first
    | rfl
    | split

/-- `Enqueue` against the reference backend appends exactly the encoding
of the item, stamped with the current clock, at the next ID. -/
theorem Enqueue_redisClient_state (pq : PQ) (it : String) (pr : Int) (s : RedisState) :
    (Enqueue redisClient pq it pr s).2
      = { s with log := s.log ++
          [{ id := s.log.length,
             values := encode { payload := it, priority := pr,
                                createdAt := Int.ofNat s.clock } }] } := rfl

/-! ## Enqueue/dequeue sequences (for the delivery-order claim) -/

/-- A sequence of `Enqueue` calls (item, priority pairs, in call order). -/
def enqueueAll (pq : PQ) (l : List (String × Int)) (s : RedisState) : RedisState :=
  l.foldl (fun t it => (Enqueue redisClient pq it.1 it.2 t).2) s

/-- `n` successive `Dequeue` calls; the list of their results, in call
order, and the final state. -/
def dequeueN (pq : PQ) : Nat → RedisState → List (RResult (String × Int)) × RedisState
  | 0, s => ([], s)
  | n + 1, s =>
    let r := Dequeue redisClient pq s
    let rest := dequeueN pq n r.2
    (r.1 :: rest.1, rest.2)

/-- The log entries a sequence of enqueues appends: consecutive IDs from
`base`, each the encoding of its pair stamped at `clock`. -/
def buildEntries (base clock : Nat) : List (String × Int) → List Entry
  | [] => []
  | it :: rest =>
    { id := base,
      values := encode { payload := it.1, priority := it.2, createdAt := Int.ofNat clock } }
      :: buildEntries (base + 1) clock rest

theorem enqueueAll_state (pq : PQ) :
    ∀ (l : List (String × Int)) (s : RedisState),
      enqueueAll pq l s = { s with log := s.log ++ buildEntries s.log.length s.clock l } := by
  intro l
  induction l with
  | nil =>
    intro s
    show s = { s with log := s.log ++ buildEntries s.log.length s.clock [] }
    simp [buildEntries]
  | cons x xs ih =>
    intro s
    show enqueueAll pq xs (Enqueue redisClient pq x.1 x.2 s).2
      = { s with log := s.log ++ buildEntries s.log.length s.clock (x :: xs) }
    rw [Enqueue_redisClient_state, ih]
    simp [buildEntries, List.append_assoc]

theorem buildEntries_getElem? (clock : Nat) :
    ∀ (l : List (String × Int)) (base i : Nat),
      (buildEntries base clock l)[i]?
        = (l[i]?).map fun it =>
            { id := base + i,
              values := encode { payload := it.1, priority := it.2,
                                 createdAt := Int.ofNat clock } } := by
  intro l
  induction l with
  | nil => intro base i; simp [buildEntries]
  | cons x xs ih =>
    intro base i
    cases i with
    | zero => simp [buildEntries]
    | succ j =>
      simp only [buildEntries, List.getElem?_cons_succ, ih (base + 1) j]
      have harith : base + 1 + j = base + (j + 1) := by omega
      rw [harith]

/-- One `Dequeue` step against the reference backend, from a state with
an empty PEL whose cursor points at an encoded entry: the entry's payload
and priority are returned and the only net state change is the advanced
cursor (the delivery is acknowledged within the call). -/
theorem Dequeue_step (pq : PQ) (s : RedisState) (e : Entry) (it : String) (pr cr : Int)
    (he : s.log[s.lastDelivered]? = some e)
    (hv : e.values = encode { payload := it, priority := pr, createdAt := cr })
    (hpel : s.pel = []) :
    Dequeue redisClient pq s
      = (RResult.ok (it, pr), { s with lastDelivered := s.lastDelivered + 1 }) := by
  rw [Dequeue_redisClient_eq, he]
  show processMessage redisClient pq { id := e.id, values := e.values }
      { s with lastDelivered := s.lastDelivered + 1,
               pel := s.pel ++ [{ id := e.id, consumer := "consumer-1",
                                  deliveryTime := s.clock, deliveryCount := 1 }] } = _
  rw [processMessage_decode]
  show (match decode e.values with
    | RResult.ok v =>
      (match xAckImpl e.id ({ s with lastDelivered := s.lastDelivered + 1, pel := s.pel ++ [({ id := e.id, consumer := "consumer-1", deliveryTime := s.clock, deliveryCount := 1 } : PendingEntry)] } : RedisState) with
       | (RResult.ok _, s1) => (RResult.ok v, s1)
       | (RResult.redisNil, s1) => (RResult.fail "failed to ack message", s1)
       | (RResult.fail _, s1) => (RResult.fail "failed to ack message", s1))
    | RResult.redisNil =>
      (RResult.redisNil, ({ s with lastDelivered := s.lastDelivered + 1, pel := s.pel ++ [({ id := e.id, consumer := "consumer-1", deliveryTime := s.clock, deliveryCount := 1 } : PendingEntry)] } : RedisState))
    | RResult.fail e2 =>
      (RResult.fail e2, ({ s with lastDelivered := s.lastDelivered + 1, pel := s.pel ++ [({ id := e.id, consumer := "consumer-1", deliveryTime := s.clock, deliveryCount := 1 } : PendingEntry)] } : RedisState))) = _
  rw [hv, decode_encode, hpel]
  unfold xAckImpl
  simp [bne_self_eq_false]

theorem dequeueN_reads_in_order (pq : PQ) (clockE : Nat) :
    ∀ (l : List (String × Int)) (s : RedisState) (base : List Entry),
      s.log = base ++ buildEntries base.length clockE l →
      s.lastDelivered = base.length →
      s.pel = [] →
      (dequeueN pq l.length s).1 = l.map fun it => RResult.ok it := by
  intro l
  induction l with
  | nil => intro s base _ _ _; rfl
  | cons x xs ih =>
    intro s base hlog hlast hpel
    have he : s.log[s.lastDelivered]? = some
        { id := base.length,
          values := encode { payload := x.1, priority := x.2, createdAt := Int.ofNat clockE } } := by
      rw [hlog, hlast, List.getElem?_append_right (le_refl base.length)]
      simp [buildEntries]
    have hstep := Dequeue_step pq s _ x.1 x.2 (Int.ofNat clockE) he rfl hpel
    show ((Dequeue redisClient pq s).1
        :: (dequeueN pq xs.length (Dequeue redisClient pq s).2).1)
      = RResult.ok x :: xs.map fun it => RResult.ok it
    rw [hstep]
    show RResult.ok x :: (dequeueN pq xs.length
        ({ s with lastDelivered := s.lastDelivered + 1 } : RedisState)).1
      = RResult.ok x :: xs.map fun it => RResult.ok it
    congr 1
    refine ih { s with lastDelivered := s.lastDelivered + 1 }
      (base ++ [{ id := base.length,
                  values := encode { payload := x.1, priority := x.2,
                                     createdAt := Int.ofNat clockE } }]) ?_ ?_ hpel
    · show s.log = _
      rw [hlog]
      simp [buildEntries, List.append_assoc]
    · show s.lastDelivered + 1 = _
      simp [hlast]

/-- C1: a sequence of `Enqueue` calls followed by `Dequeue` calls, against
a group that has consumed its prior log and is holding nothing pending,
returns the items in exactly the order they were enqueued — the priority
values never reorder delivery. -/
theorem dequeue_order_is_append_order (pq : PQ) (l : List (String × Int)) (s : RedisState)
    (hcaughtup : s.lastDelivered = s.log.length) (hpel : s.pel = []) :
    (dequeueN pq l.length (enqueueAll pq l s)).1 = l.map fun it => RResult.ok it := by
  refine dequeueN_reads_in_order pq s.clock l (enqueueAll pq l s) s.log ?_ ?_ ?_
  · rw [enqueueAll_state]
  · rw [enqueueAll_state]; exact hcaughtup
  · rw [enqueueAll_state]; exact hpel

/-- Witness for C1: the spec's scenario — four items with priorities
4..1 inverted versus their append order come back strictly in append
order. -/
theorem dequeue_order_is_append_order_witness :
    (dequeueN { stream := "tasks", group := "workers" } 4
        (enqueueAll { stream := "tasks", group := "workers" }
          [("critical", 1), ("important", 2), ("normal", 3), ("low", 4)] (freshState 0))).1
      = [RResult.ok ("critical", 1), RResult.ok ("important", 2),
         RResult.ok ("normal", 3), RResult.ok ("low", 4)] :=
  dequeue_order_is_append_order { stream := "tasks", group := "workers" }
    [("critical", 1), ("important", 2), ("normal", 3), ("low", 4)] (freshState 0) rfl rfl

/-- Inversion of a successful reclaim against the reference backend: the
claim returned a nonempty message list and the result is `processMessage`
of its first message in the post-transfer state. -/
theorem tryClaim_ok_inversion (pq : PQ) (s s' : RedisState) (v : String × Int)
    (h : tryClaimPendingMessages redisClient pq s = (RResult.ok v, s')) :
    ∃ first rest, claimReply (reclaimArgs pq s) s = first :: rest ∧
      processMessage redisClient pq first (claimTransfer (reclaimArgs pq s) s)
        = (RResult.ok v, s') := by
  rw [tryClaim_redisClient_eq] at h
  cases hE : (reclaimCandidateIds s).isEmpty with
  | true =>
    rw [if_pos (by rw [hE])] at h
    injection h with h1 _
    exact absurd h1 (by simp)
  | false =>
    rw [if_neg (by rw [hE]; exact Bool.false_ne_true)] at h
    cases hcr : claimReply (reclaimArgs pq s) s with
    | nil =>
      rw [hcr] at h
      injection h with h1 _
      exact absurd h1 (by simp)
    | cons first rest =>
      rw [hcr] at h
      exact ⟨first, rest, rfl, h⟩

/-- C2: dequeue is receive-and-complete.  A successful `Dequeue` decodes
the delivered entry into the returned pair and leaves that very entry
outside the pending set (it was acknowledged within the call); on the
reclaim path, the first claimed entry — which was pending before the
call — is the one that decodes to the returned pair, and its ID is no
longer pending afterwards. -/
theorem dequeue_is_receive_and_complete (pq : PQ) (s : RedisState) :
    (∀ e v s', s.log[s.lastDelivered]? = some e →
        Dequeue redisClient pq s = (RResult.ok v, s') →
        decode e.values = RResult.ok v ∧ e.id ∉ pelIds s')
    ∧ (∀ v s', tryClaimPendingMessages redisClient pq s = (RResult.ok v, s') →
        ∃ first rest, claimReply (reclaimArgs pq s) s = first :: rest ∧
          decode first.values = RResult.ok v ∧
          first.id ∈ pelIds s ∧ first.id ∉ pelIds s') := by
  constructor
  · intro e v s' he h
    rw [Dequeue_redisClient_eq, he] at h
    obtain ⟨hs', hdec⟩ := processMessage_ok_state pq _ _ _ _ h
    refine ⟨hdec, ?_⟩
    rw [hs']
    exact not_mem_ackFilter _ _
  · intro v s' h
    obtain ⟨first, rest, hcr, hpm⟩ := tryClaim_ok_inversion pq s s' v h
    obtain ⟨hs', hdec⟩ := processMessage_ok_state pq _ _ _ _ hpm
    refine ⟨first, rest, hcr, hdec, ?_, ?_⟩
    · have hmem : first.id ∈ (claimReply (reclaimArgs pq s) s).map fun m => m.id := by
        rw [hcr]; exact List.mem_cons_self _ _
      rw [claimReply_ids] at hmem
      obtain ⟨p, hp, hpid⟩ := List.mem_map.mp hmem
      exact hpid ▸ List.mem_map_of_mem _ (List.mem_of_mem_filter hp)
    · rw [hs']
      exact not_mem_ackFilter _ _

/-- Witness scenario stream/group names. -/
def pqW : PQ := { stream := "tasks", group := "workers" }

/-- Witness state: two entries appended; the first was delivered and is
still pending (idle 31 s, past the reclaim threshold), the second not yet
delivered. -/
def sBoth : RedisState :=
  { log := [{ id := 0, values := encode { payload := "a", priority := 1, createdAt := 0 } },
            { id := 1, values := encode { payload := "b", priority := 2, createdAt := 0 } }],
    lastDelivered := 1,
    pel := [{ id := 0, consumer := "consumer-1", deliveryTime := 0, deliveryCount := 1 }],
    clock := 31 * timeSecond }

/-- Witness for C2, discharging both conjuncts at `sBoth`: the dequeued
entry 1 decodes to the returned `("b", 2)` and is not pending afterwards;
the reclaimed entry 0 heads the claim reply, decodes to the returned
`("a", 1)`, was pending before and is not pending afterwards. -/
theorem dequeue_is_receive_and_complete_witness :
    (decode (encode { payload := "b", priority := 2, createdAt := 0 })
        = RResult.ok ("b", 2)
      ∧ (1 : Nat) ∉ pelIds ({ sBoth with lastDelivered := 2 } : RedisState))
    ∧ ∃ first rest, claimReply (reclaimArgs pqW sBoth) sBoth = first :: rest ∧
        decode first.values = RResult.ok ("a", 1) ∧
        first.id ∈ pelIds sBoth ∧
        first.id ∉ pelIds ({ sBoth with pel := [] } : RedisState) :=
  ⟨(dequeue_is_receive_and_complete pqW sBoth).1
      { id := 1, values := encode { payload := "b", priority := 2, createdAt := 0 } }
      ("b", 2) { sBoth with lastDelivered := 2 } (by decide) (by decide),
   (dequeue_is_receive_and_complete pqW sBoth).2
      ("a", 1) { sBoth with pel := [] } (by decide)⟩

/-- C3: whatever a successful reclaim returns decodes some pending entry
whose idle time is at least the 30-second threshold — an entry idle below
the threshold is never returned. -/
theorem reclaim_only_idle_entries (pq : PQ) (s : RedisState) (v : String × Int)
    (s' : RedisState)
    (h : tryClaimPendingMessages redisClient pq s = (RResult.ok v, s')) :
    ∃ p ∈ s.pel, 30 * timeSecond ≤ s.clock - p.deliveryTime ∧
      ∃ vs, logLookup s p.id = some vs ∧ decode vs = RResult.ok v := by
  obtain ⟨first, rest, hcr, hpm⟩ := tryClaim_ok_inversion pq s s' v h
  obtain ⟨_, hdec⟩ := processMessage_ok_state pq _ _ _ _ hpm
  have hmem : first ∈ claimReply (reclaimArgs pq s) s := by
    rw [hcr]; exact List.mem_cons_self _ _
  unfold claimReply at hmem
  obtain ⟨p, hpf, hmk⟩ := List.mem_filterMap.mp hmem
  obtain ⟨vs, hvs, hfirst⟩ := Option.map_eq_some'.mp hmk
  have hp := List.mem_of_mem_filter hpf
  have hcl := (List.mem_filter.mp hpf).2
  unfold claimable at hcl
  simp only [Bool.and_eq_true, decide_eq_true_eq] at hcl
  refine ⟨p, hp, hcl.1.2, vs, hvs, ?_⟩
  rw [← hfirst] at hdec
  exact hdec

/-- Witness for C3 at `sBoth`: the reclaimed pair `("a", 1)` comes from
pending entry 0, idle 31 s. -/
theorem reclaim_only_idle_entries_witness :
    ∃ p ∈ sBoth.pel, 30 * timeSecond ≤ sBoth.clock - p.deliveryTime ∧
      ∃ vs, logLookup sBoth p.id = some vs ∧ decode vs = RResult.ok ("a", 1) :=
  reclaim_only_idle_entries pqW sBoth ("a", 1) { sBoth with pel := [] } (by decide)

/-- C9: per reclaim call, only the first claimed entry (in pending-list
order) is decoded, acknowledged and returned; every other claimed entry
stays in the pending set for a future call. -/
theorem reclaim_consumes_only_first (pq : PQ) (s : RedisState) (v : String × Int)
    (s' : RedisState) (hnd : (pelIds s).Nodup)
    (h : tryClaimPendingMessages redisClient pq s = (RResult.ok v, s')) :
    ∃ first rest, claimReply (reclaimArgs pq s) s = first :: rest ∧
      decode first.values = RResult.ok v ∧
      first.id ∉ pelIds s' ∧
      ∀ m ∈ rest, m.id ∈ pelIds s' := by
  obtain ⟨first, rest, hcr, hpm⟩ := tryClaim_ok_inversion pq s s' v h
  obtain ⟨hs', hdec⟩ := processMessage_ok_state pq _ _ _ _ hpm
  refine ⟨first, rest, hcr, hdec, ?_, ?_⟩
  · rw [hs']; exact not_mem_ackFilter _ _
  · intro m hm
    have hids := claimReply_ids (reclaimArgs pq s) s
    have hndr : ((claimReply (reclaimArgs pq s) s).map fun m => m.id).Nodup := by
      rw [hids]
      exact hnd.sublist (List.Sublist.map _ (List.filter_sublist _))
    have hne : m.id ≠ first.id := by
      rw [hcr] at hndr
      simp only [List.map_cons, List.nodup_cons] at hndr
      intro heq
      exact hndr.1 (heq ▸ List.mem_map_of_mem _ hm)
    have hm2 : m.id ∈ pelIds (claimTransfer (reclaimArgs pq s) s) := by
      rw [pelIds_claimTransfer]
      have hmm : m.id ∈ (claimReply (reclaimArgs pq s) s).map fun m => m.id := by
        rw [hcr]
        exact List.mem_map_of_mem _ (List.mem_cons_of_mem _ hm)
      rw [hids] at hmm
      obtain ⟨p, hp, hpid⟩ := List.mem_map.mp hmm
      exact hpid ▸ List.mem_map_of_mem _ (List.mem_of_mem_filter hp)
    rw [hs']
    obtain ⟨q, hq, hqid⟩ := List.mem_map.mp hm2
    refine List.mem_map.mpr ⟨q, List.mem_filter.mpr ⟨hq, ?_⟩, hqid⟩
    rw [bne_iff_ne, hqid]
    exact hne

/-- Witness state for C9: both appended entries pending and idle past the
threshold. -/
def sTwoPend : RedisState :=
  { log := [{ id := 0, values := encode { payload := "a", priority := 1, createdAt := 0 } },
            { id := 1, values := encode { payload := "b", priority := 2, createdAt := 0 } }],
    lastDelivered := 2,
    pel := [{ id := 0, consumer := "consumer-1", deliveryTime := 0, deliveryCount := 1 },
            { id := 1, consumer := "consumer-1", deliveryTime := 0, deliveryCount := 1 }],
    clock := 31 * timeSecond }

/-- The state after one reclaim call on `sTwoPend`: entry 0 was consumed,
entry 1 was claimed (ownership transferred, idle reset, delivery counter
bumped) but stays pending. -/
def sTwoPendClaimed : RedisState :=
  { sTwoPend with pel := [{ id := 1, consumer := "consumer-1",
                            deliveryTime := 31 * timeSecond, deliveryCount := 2 }] }

/-- Witness for C9 at `sTwoPend`. -/
theorem reclaim_consumes_only_first_witness :
    ∃ first rest, claimReply (reclaimArgs pqW sTwoPend) sTwoPend = first :: rest ∧
      decode first.values = RResult.ok ("a", 1) ∧
      first.id ∉ pelIds sTwoPendClaimed ∧
      ∀ m ∈ rest, m.id ∈ pelIds sTwoPendClaimed :=
  reclaim_consumes_only_first pqW sTwoPend ("a", 1) sTwoPendClaimed (by decide) (by decide)

/-- C10: when the delivered record does not decode (missing/non-string
`item` or `priority`, or non-integer `priority`), `processMessage` returns
the decode error before ever calling the backend: no acknowledgment is
issued and the backend state — in particular the pending set holding the
entry — is untouched, so the entry stays reclaimable. -/
theorem malformed_message_not_acked {σ : Type} (c : Client σ) (pq : PQ) (msg : XMessage)
    (s : σ) (e : String) (h : decode msg.values = RResult.fail e) :
    processMessage c pq msg s = (RResult.fail e, s) := by
  rw [processMessage_decode, h]

/-- Witness for C10: a record with no `priority` field is reported as
`invalid priority type` and the state (with the entry pending) is
unchanged. -/
theorem malformed_message_not_acked_witness :
    processMessage redisClient pqW { id := 0, values := [("item", GoVal.str "a")] } sBoth
      = (RResult.fail "invalid priority type", sBoth) :=
  malformed_message_not_acked redisClient pqW
    { id := 0, values := [("item", GoVal.str "a")] } sBoth "invalid priority type" (by decide)

/-- C6 (code evaluation): a successful `Peek` leaves the pending set
exactly as it was — because of `NoAck: true` the peeked entry is *not*
added to the PEL — while the group cursor advances past the entry; the
entry is therefore never reclaimable and the pending count does not grow. -/
theorem peek_skips_pending_set (pq : PQ) (s : RedisState) (v : String × Int)
    (s' : RedisState) (h : Peek redisClient pq s = (RResult.ok v, s')) :
    s'.pel = s.pel ∧ s'.lastDelivered = s.lastDelivered + 1 ∧ s'.log = s.log := by
  rw [Peek_redisClient_eq] at h
  cases he : s.log[s.lastDelivered]? with
  | none =>
    rw [he] at h
    injection h with h1 _
    exact absurd h1 (by simp)
  | some e =>
    rw [he] at h
    injection h with _ h2
    rw [← h2]
    exact ⟨rfl, rfl, rfl⟩

/-- Witness for C6's code evaluation at `sBoth`. -/
theorem peek_skips_pending_set_witness :
    ({ sBoth with lastDelivered := 2 } : RedisState).pel = sBoth.pel
      ∧ ({ sBoth with lastDelivered := 2 } : RedisState).lastDelivered
        = sBoth.lastDelivered + 1
      ∧ ({ sBoth with lastDelivered := 2 } : RedisState).log = sBoth.log :=
  peek_skips_pending_set pqW sBoth ("b", 2) { sBoth with lastDelivered := 2 } (by decide)

/-- C7 (amended): a backend failure of the pending-list query is
propagated by `tryClaimPendingMessages`, but `DequeueWithPriority`
treats every reclaim failure — backend errors included — as "nothing to
claim" and silently falls through to a normal `Dequeue`, so the error
never reaches its caller. -/
theorem pending_query_error_swallowed {σ : Type} (c : Client σ) (pq : PQ) (s s' : σ)
    (e : String)
    (h : c.xPendingExt { stream := pq.stream, group := pq.group, start := "-", stop := "+",
                         count := 10, consumer := "" } s = (RResult.fail e, s')) :
    tryClaimPendingMessages c pq s = (RResult.fail e, s')
      ∧ DequeueWithPriority c pq s = Dequeue c pq s' := by
  have h1 : tryClaimPendingMessages c pq s = (RResult.fail e, s') := by
    unfold tryClaimPendingMessages
    rw [h]
  refine ⟨h1, ?_⟩
  unfold DequeueWithPriority
  rw [h1]

/-- A backend whose pending-list query fails with a connection error
(every other call behaves normally). -/
def pendingFailClient : Client RedisState :=
  { redisClient with xPendingExt := fun _ s => (RResult.fail "connection refused", s) }

/-- Witness for C7's amended statement, at `pendingFailClient` and
`sBoth`. -/
theorem pending_query_error_swallowed_witness :
    tryClaimPendingMessages pendingFailClient pqW sBoth
        = (RResult.fail "connection refused", sBoth)
      ∧ DequeueWithPriority pendingFailClient pqW sBoth
        = Dequeue pendingFailClient pqW sBoth :=
  pending_query_error_swallowed pendingFailClient pqW sBoth sBoth
    "connection refused" (by decide)

/-- Counterexample to C7 as stated: at `sBoth` with a backend whose
pending-list query fails with `connection refused`, the reclaim path
reports that backend error, yet `DequeueWithPriority` returns a
successfully dequeued item — the error is not propagated to the caller. -/
theorem c7_counterexample :
    tryClaimPendingMessages pendingFailClient pqW sBoth
        = (RResult.fail "connection refused", sBoth)
      ∧ DequeueWithPriority pendingFailClient pqW sBoth
        = (RResult.ok ("b", 2), { sBoth with lastDelivered := 2 }) := by
  constructor
  · decide
  · decide

/-- A backend whose pending-summary fetch reports absence (`redis.Nil`) —
the "group has no pending list yet" situation the claim describes; every
other call behaves normally. -/
def nilSummaryClient : Client RedisState :=
  { redisClient with xPending := fun _ _ s => (RResult.redisNil, s) }

/-- C8 (code evaluation): when the pending-summary fetch reports absence,
`GetQueueInfo` does not return `(totalEntries, 0)` — the `err != redis.Nil`
guard lets the sentinel through and `pending.Count` dereferences the nil
`*redis.XPending`, a run-time panic (`InfoResult.nilPanic`). -/
theorem stats_nil_pending_summary_panics (pq : PQ) (s : RedisState) :
    GetQueueInfo nilSummaryClient pq s = (InfoResult.nilPanic, s) := rfl

/-- C4 (amended): the codec round-trip recovers payload and priority for
every `QueueItem` — priority 0 and negative priorities included; the
`created` timestamp is written by `encode` but ignored by `decode`. -/
theorem codec_roundtrip_payload_priority (q : QueueItem) :
    decode (encode q) = RResult.ok (q.payload, q.priority) :=
  decode_encode q

/-- Counterexample to C4 as stated: two items that differ only in their
creation timestamp have identical decode-of-encode images, so the
timestamp does not survive the cycle and `decode (encode item) = item`
fails for at least one of them. -/
theorem c4_counterexample :
    decode (encode { payload := "a", priority := 0, createdAt := 5 })
        = decode (encode { payload := "a", priority := 0, createdAt := 7 })
      ∧ ({ payload := "a", priority := 0, createdAt := 5 } : QueueItem)
        ≠ { payload := "a", priority := 0, createdAt := 7 } := by
  constructor
  · decide
  · decide

/-- C5 (amended): `decode` fails exactly when the `item` field is missing
or non-string, the `priority` field is missing or non-string, or the
`priority` string does not parse as an integer; the `created` field is
never validated (or read at all). -/
theorem decode_rejects_exactly_malformed_item_or_priority (r : Record) :
    (∃ e, decode r = RResult.fail e) ↔
      ((∀ it, lookupField r "item" ≠ some (GoVal.str it))
        ∨ (∀ ps, lookupField r "priority" ≠ some (GoVal.str ps))
        ∨ (∃ ps, lookupField r "priority" = some (GoVal.str ps) ∧ Atoi ps = none)) := by
  unfold decode
  cases h1 : lookupField r "item" with
  | none =>
    constructor
    · intro _
      exact Or.inl fun it hcontra => by cases hcontra
    · intro _
      exact ⟨"invalid item type", rfl⟩
  | some v =>
    cases v with
    | nonstr =>
      constructor
      · intro _
        refine Or.inl fun it hcontra => ?_
        injection hcontra with h'
        cases h'
      · intro _
        exact ⟨"invalid item type", rfl⟩
    | str item =>
      cases h2 : lookupField r "priority" with
      | none =>
        constructor
        · intro _
          exact Or.inr (Or.inl fun ps hcontra => by cases hcontra)
        · intro _
          exact ⟨"invalid priority type", rfl⟩
      | some w =>
        cases w with
        | nonstr =>
          constructor
          · intro _
            refine Or.inr (Or.inl fun ps hcontra => ?_)
            injection hcontra with h'
            cases h'
          · intro _
            exact ⟨"invalid priority type", rfl⟩
        | str ps =>
          show (∃ e, (match Atoi ps with
            | some priority => RResult.ok (item, priority)
            | none => (RResult.fail "invalid priority value" : RResult (String × Int)))
              = RResult.fail e) ↔ _
          cases h3 : Atoi ps with
          | none =>
            constructor
            · intro _
              exact Or.inr (Or.inr ⟨ps, rfl, h3⟩)
            · intro _
              exact ⟨"invalid priority value", rfl⟩
          | some p =>
            constructor
            · rintro ⟨e, he⟩
              exact absurd he (by simp)
            · rintro (hbad | hbad | ⟨ps', hps', hA⟩)
              · exact absurd rfl (hbad item)
              · exact absurd rfl (hbad ps)
              · injection hps' with h'
                injection h' with h''
                rw [← h''] at hA
                rw [h3] at hA
                cases hA

/-- Counterexample to C5 as stated: a record whose required `created`
field is entirely absent is not rejected — `decode` accepts it and
returns the payload and priority. -/
theorem c5_counterexample :
    lookupField [("item", GoVal.str "a"), ("priority", GoVal.str "1")] "created" = none
      ∧ decode [("item", GoVal.str "a"), ("priority", GoVal.str "1")]
        = RResult.ok ("a", 1) := by
  constructor
  · decide
  · decide

end StreamQueue
